import Mathlib

/-!
# Verification of the okuafopa-backend order core

Shallow embedding of the order-fulfillment core of `okuafopa-backend`
(`src/controllers/orderController.js`, `src/models/Order.js`,
`src/models/ProductListing.js`) together with theorems settling the claims
about it.

Modelling conventions:
* JavaScript status strings stay `String`s; a status field that may be unset
  (`undefined`) is an `Option String`.
* Mongo ObjectIds become `Nat`s.  Sub-orders carry a generated `_id`
  (`SubOrderSchema` has `_id: true`); order items carry `_id : Option Nat`
  because `OrderItemSchema` is declared with `_id: false`, so mongoose never
  assigns ids to items (the system always stores `none`).
* JS numbers appearing as money/stock are modelled as `Int` (schema `min`
  constraints are part of save-time validation, below).
* The listing store (`ProductListing` collection) is `Nat → Option Listing`;
  `findOneAndUpdate({_id, quantity: {$gte: qty}}, {$inc: {quantity: -qty}})`
  is the conditional decrement `condDecrement`.
* `doc.save()` is `saveOrder`: mongoose runs schema validation first (the
  built-in `validate` hooks run before user `pre('save')` hooks), then the
  user hook `OrderSchema.pre('save')`, which calls `updateDerivedStatus` and
  overwrites `Order.status`.  `Order.create` inside `createOrder` goes through
  the same pipeline.
* The mongo transaction of `createOrder` is modelled by threading a session
  store; `abortTransaction` before an error return means the visible store is
  the original one, `commitTransaction` publishes the session store.
* Fire-and-forget side effects (emails, socket emits, audit hook) do not
  touch order or listing state and are omitted.
-/

deriving instance DecidableEq for Except

namespace Okuafopa

/-! ## Listing store (`src/models/ProductListing.js`) -/

structure Listing where
  price : Int
  quantity : Int
deriving DecidableEq, Repr

def Store := Nat → Option Listing

def storeSet (s : Store) (pid : Nat) (l : Listing) : Store :=
  fun p => if p = pid then some l else s p

/-- All listings in the store have non-negative stock
(schema: `quantity: {type: Number, min: 0}`). -/
def StoreNonneg (s : Store) : Prop :=
  ∀ pid l, s pid = some l → 0 ≤ l.quantity

/-! ## Order aggregate (`src/models/Order.js`) -/

structure OrderItem where
  _id : Option Nat
  product : Nat
  qty : Int
  priceAtOrder : Int
  itemStatus : Option String
deriving DecidableEq, Repr

structure SubOrder where
  _id : Nat
  farmer : Nat
  items : List OrderItem
  subtotal : Int
  status : Option String
deriving DecidableEq, Repr

structure Order where
  _id : Nat
  buyer : Nat
  subOrders : List SubOrder
  grandTotal : Int
  status : String
  lastUpdatedBy : Nat
deriving DecidableEq, Repr

/-- Authenticated principal `req.user` supplied by the auth middleware. -/
structure Principal where
  sub : Nat
  role : String
  isAdmin : Bool
deriving DecidableEq, Repr

/-! ## Status enumerations -/

/-- Controller-side constant `ALLOWED_ITEM_STATUSES`. -/
def ALLOWED_ITEM_STATUSES : List String :=
  ["pending", "accepted", "rejected", "ready", "in_transit", "delivered", "cancelled"]

/-- Enum of `OrderItemSchema.itemStatus`. -/
def ITEM_STATUS_ENUM : List String :=
  ["pending", "accepted", "rejected", "ready", "in_transit", "delivered", "cancelled"]

/-- Enum of `SubOrderSchema.status`. -/
def SUBORDER_STATUS_ENUM : List String :=
  ["pending", "accepted", "rejected", "ready", "in_transit", "delivered",
   "cancelled", "in_progress", "partially_delivered"]

/-- Enum of `OrderSchema.status`. -/
def ORDER_STATUS_ENUM : List String :=
  ["pending", "in_progress", "partially_delivered", "delivered", "cancelled"]

/-! ## Status derivation helpers (`orderController.js`, lines 51-72)

The JS functions first map every element to its (defaulted) status string and
then branch on the resulting array; the `items.length === 0` early return is
equivalent to testing emptiness of the mapped array, so the branch cascade is
factored into a `...Core` function on the status list. -/

def deriveSubOrderStatusCore (statuses : List String) : String :=
  if statuses.isEmpty then "pending"
  else if statuses.all (fun s => s == "delivered") then "delivered"
  else if statuses.all (fun s => s == "cancelled") then "cancelled"
  else if statuses.contains "in_transit" || statuses.contains "ready"
        || statuses.contains "accepted" then "in_progress"
  else if statuses.contains "delivered" && statuses.any (fun s => s != "delivered") then
    "partially_delivered"
  else if statuses.all (fun s => s == "pending") then "pending"
  else "in_progress"

/-- Embedding of `deriveSubOrderStatus(items)`: each item's status defaults to `'pending'`
(`it.itemStatus || 'pending'`). -/
def deriveSubOrderStatus (items : List OrderItem) : String :=
  deriveSubOrderStatusCore (items.map (fun it => it.itemStatus.getD "pending"))

def deriveOrderStatusCore (statuses : List String) : String :=
  if statuses.isEmpty then "pending"
  else if statuses.all (fun s => s == "delivered") then "delivered"
  else if statuses.all (fun s => s == "cancelled") then "cancelled"
  else if statuses.contains "delivered" && statuses.any (fun s => s != "delivered") then
    "partially_delivered"
  else if statuses.all (fun s => s == "pending") then "pending"
  else "in_progress"

/-- Embedding of `deriveOrderStatus(subOrders)`: each sub-order's status defaults to
`'pending'` (`so.status || 'pending'`). -/
def deriveOrderStatus (subOrders : List SubOrder) : String :=
  deriveOrderStatusCore (subOrders.map (fun so => so.status.getD "pending"))

/-! ## The model's own derivation and the save pipeline (`Order.js`) -/

/-- Embedding of `OrderSchema.methods.updateDerivedStatus`: note that it reads the raw
`s.status` values (no `|| 'pending'` default) and uses a different branch
cascade than `deriveOrderStatus`. -/
def updateDerivedStatus (subStatuses : List (Option String)) : String :=
  if subStatuses.all (fun s => s == some "delivered") then "delivered"
  else if subStatuses.any (fun s =>
      s == some "ready" || s == some "in_transit" || s == some "delivered") then
    "partially_delivered"
  else if subStatuses.all (fun s => s == some "cancelled") then "cancelled"
  else if subStatuses.any (fun s =>
      s == some "accepted" || s == some "ready" || s == some "in_transit") then
    "in_progress"
  else "pending"

/-- The hook `OrderSchema.pre('save')` calls `this.updateDerivedStatus()`. -/
def preSaveHook (o : Order) : Order :=
  { o with status := updateDerivedStatus (o.subOrders.map (fun so => so.status)) }

def validItem (it : OrderItem) : Bool :=
  decide (1 ≤ it.qty) && decide (0 ≤ it.priceAtOrder) &&
  (match it.itemStatus with
   | some st => ITEM_STATUS_ENUM.contains st
   | none => true)

def validSubOrder (so : SubOrder) : Bool :=
  decide (0 ≤ so.subtotal) &&
  (match so.status with
   | some st => SUBORDER_STATUS_ENUM.contains st
   | none => true) &&
  so.items.all validItem

/-- Mongoose schema validation for an order document (enum and `min`
constraints of `OrderSchema` and its subschemas). -/
def validateOrder (o : Order) : Bool :=
  decide (0 ≤ o.grandTotal) && ORDER_STATUS_ENUM.contains o.status &&
  o.subOrders.all validSubOrder

/-- Errors surfaced by the order controller (`res.status(...)` returns) plus
`saveValidationFailed` for a mongoose `ValidationError` thrown by `save()` and
passed to `next(err)`. -/
inductive OError where
  | validationFailed
  | emptySubOrderItems
  | productNotFound (pid : Nat)
  | insufficientStock (pid : Nat) (available requested : Int)
  | reserveConflict (pid : Nat)
  | orderNotFound
  | subOrderNotFound
  | itemNotFound
  | notAuthorized
  | forbidden
  | invalidItemStatus
  | missingStatus
  | invalidSetItemsTo
  | saveValidationFailed
deriving DecidableEq, Repr

/-- HTTP status each error is answered with.  `saveValidationFailed` flows
through `next(err)`; the repository registers no error-handling middleware, so
Express's default handler answers 500. -/
def httpStatus : OError → Nat
  | .validationFailed => 400
  | .emptySubOrderItems => 400
  | .productNotFound _ => 400
  | .insufficientStock _ _ _ => 400
  | .reserveConflict _ => 409
  | .orderNotFound => 404
  | .subOrderNotFound => 404
  | .itemNotFound => 404
  | .notAuthorized => 403
  | .forbidden => 403
  | .invalidItemStatus => 400
  | .missingStatus => 400
  | .invalidSetItemsTo => 400
  | .saveValidationFailed => 500

/-- Embedding of `doc.save()` / `Order.create`: schema validation runs first (mongoose's
built-in validate hook precedes user `pre('save')` hooks), then the
`pre('save')` hook recomputes `status`, then the document is persisted. -/
def saveOrder (o : Order) : Except OError Order :=
  if validateOrder o then .ok (preSaveHook o) else .error .saveValidationFailed

/-! ## `createOrder` (`orderController.js`, lines 137-268) -/

/-- One checkout line of the request body: `{product, qty}`. -/
structure ReqItem where
  product : Nat
  qty : Int
deriving DecidableEq, Repr

/-- One sub-order of the request body (delivery/billing details carry no
order-state information and are omitted). -/
structure ReqSubOrder where
  farmer : Nat
  items : List ReqItem
deriving DecidableEq, Repr

/-- The Joi `orderSchema` constraints that concern the order state:
`subOrders` min 1, each `items` min 1, each `qty` integer ≥ 1. -/
def joiValid (req : List ReqSubOrder) : Bool :=
  !req.isEmpty &&
  req.all (fun so => !so.items.isEmpty && so.items.all (fun it => decide (1 ≤ it.qty)))

/-- Embedding of `ProductListing.findOneAndUpdate({_id: pid, quantity: {$gte: qty}},
{$inc: {quantity: -qty}})`: decrement only if the listing exists and its
current quantity is still ≥ `qty`; otherwise match nothing. -/
def condDecrement (s : Store) (pid : Nat) (qty : Int) : Option Store :=
  match s pid with
  | none => none
  | some prod =>
    if qty ≤ prod.quantity then
      some (storeSet s pid { prod with quantity := prod.quantity - qty })
    else none

/-- Embedding of `if (!updated) { abort; return 409 }` — a refused conditional decrement
fails the whole checkout with `Conflict`. -/
def applyDecrementResult (pid : Nat) (r : Option Store) : Except OError Store :=
  match r with
  | some s' => .ok s'
  | none => .error (.reserveConflict pid)

/-- Body of the inner `for (const it of so.items)` loop: look the listing up
in the session, check availability, capture `priceAtOrder`, default the item
status, then attempt the guarded decrement. -/
def processItem (s : Store) (it : ReqItem) : Except OError (Store × OrderItem) :=
  match s it.product with
  | none => .error (.productNotFound it.product)
  | some prod =>
    if prod.quantity < it.qty then
      .error (.insufficientStock it.product prod.quantity it.qty)
    else
      match applyDecrementResult it.product (condDecrement s it.product it.qty) with
      | .error e => .error e
      | .ok s' =>
        .ok (s', { _id := none
                   product := it.product
                   qty := it.qty
                   priceAtOrder := prod.price
                   itemStatus := some "pending" })

/-- The inner loop over a sub-order's items, accumulating
`subtotal += unitPrice * qty`. -/
def processItemsAcc (s : Store) (its : List ReqItem) (acc : Int) :
    Except OError (Store × List OrderItem × Int) :=
  match its with
  | [] => .ok (s, [], acc)
  | it :: rest =>
    match processItem s it with
    | .error e => .error e
    | .ok (s', oi) =>
      match processItemsAcc s' rest (acc + oi.priceAtOrder * oi.qty) with
      | .error e => .error e
      | .ok (s'', ois, sub) => .ok (s'', oi :: ois, sub)

/-- The outer `for (const so of subOrders)` loop; `idx` models the generated
sub-order `_id`s (opaque unique tokens, here the position).  Accumulates
`grandTotal += subtotal`. -/
def processSubOrders (s : Store) (idx : Nat) (sos : List ReqSubOrder) :
    Except OError (Store × List SubOrder × Int) :=
  match sos with
  | [] => .ok (s, [], 0)
  | so :: rest =>
    if so.items.isEmpty then .error .emptySubOrderItems
    else
      match processItemsAcc s so.items 0 with
      | .error e => .error e
      | .ok (s', ois, subtotal) =>
        match processSubOrders s' (idx + 1) rest with
        | .error e => .error e
        | .ok (s'', subs, restTotal) =>
          .ok (s'', { _id := idx
                      farmer := so.farmer
                      items := ois
                      subtotal := subtotal
                      status := some (deriveSubOrderStatus ois) } :: subs,
               subtotal + restTotal)

/-- Embedding of `exports.createOrder`: the whole handler.  The first component of the
result is the listing store visible after the call: the session store on
commit, the untouched input store when the transaction was aborted. -/
def createOrder (s : Store) (buyer : Nat) (req : List ReqSubOrder) :
    Store × Except OError Order :=
  if joiValid req = false then (s, .error .validationFailed)
  else
    match processSubOrders s 0 req with
    | .error e => (s, .error e)
    | .ok (s', subs, grandTotal) =>
      match saveOrder { _id := 0
                        buyer := buyer
                        subOrders := subs
                        grandTotal := grandTotal
                        status := deriveOrderStatus subs
                        lastUpdatedBy := buyer } with
      | .error e => (s, .error e)
      | .ok o => (s', .ok o)

/-! ## Lookup helpers for the mutation endpoints -/

/-- Embedding of `order.subOrders.id(subOrderId)`: first subdocument with matching `_id`. -/
def subOrdersId (subs : List SubOrder) (sid : Nat) : Option SubOrder :=
  subs.find? (fun so => so._id == sid)

/-- Embedding of `subOrder.items.id(itemId)`: `DocumentArray#id` returns the first
subdocument whose `_id` equals the argument and skips subdocuments without an
`_id`.  `OrderItemSchema` is declared with `_id: false`, so items stored by
this system all have `_id = none`. -/
def itemsId (items : List OrderItem) (iid : Nat) : Option OrderItem :=
  items.find? (fun it => it._id == some iid)

/-- Mutate the subdocument found by `subOrders.id(sid)` in place (reference
semantics: only the first `_id` match is the found document). -/
def setSubOrder (subs : List SubOrder) (sid : Nat) (f : SubOrder → SubOrder) :
    List SubOrder :=
  match subs with
  | [] => []
  | so :: rest => if so._id == sid then f so :: rest else so :: setSubOrder rest sid f

/-- Mutate the item found by `items.id(iid)` in place. -/
def setFirstItemStatus (items : List OrderItem) (iid : Nat) (st : String) :
    List OrderItem :=
  match items with
  | [] => []
  | it :: rest =>
    if it._id == some iid then { it with itemStatus := some st } :: rest
    else it :: setFirstItemStatus rest iid st

/-- Embedding of `if (setItemsTo) subOrder.items.forEach(it => it.itemStatus = setItemsTo)`. -/
def applyBulkItemStatus (items : List OrderItem) (setItemsTo : Option String) :
    List OrderItem :=
  match setItemsTo with
  | some s => items.map (fun it => { it with itemStatus := some s })
  | none => items

/-! ## Read and mutation endpoints -/

/-- Embedding of `exports.getOrder` visibility check (the order was already found by id;
the 404 path is not modelled since every claim supplies the order). -/
def getOrder (o : Order) (u : Principal) : Except OError Order :=
  if u.isAdmin then .ok o
  else if u.role == "farmer" then
    if o.subOrders.any (fun so => so.farmer == u.sub) then .ok o
    else .error .forbidden
  else if o.buyer == u.sub then .ok o else .error .forbidden

/-- Embedding of `exports.updateOrderStatus`: admin-only; assigns `order.status = status`
and saves (the save pipeline then runs validation and the pre-save hook). -/
def updateOrderStatus (o : Order) (newStatus : String) (u : Principal) :
    Except OError Order :=
  if !u.isAdmin then .error .forbidden
  else saveOrder { o with status := newStatus, lastUpdatedBy := u.sub }

/-- Embedding of `exports.updateOrderItemStatus`: validate the status, find sub-order and
item, check permission, set the leaf status, re-derive sub-order and order
status, save. -/
def updateOrderItemStatus (o : Order) (subOrderId itemId : Nat)
    (itemStatus : String) (u : Principal) : Except OError Order :=
  if !(ALLOWED_ITEM_STATUSES.contains itemStatus) then .error .invalidItemStatus
  else
    match subOrdersId o.subOrders subOrderId with
    | none => .error .subOrderNotFound
    | some so =>
      match itemsId so.items itemId with
      | none => .error .itemNotFound
      | some _ =>
        if !u.isAdmin && so.farmer != u.sub then .error .notAuthorized
        else
          let items' := setFirstItemStatus so.items itemId itemStatus
          let subs' := setSubOrder o.subOrders subOrderId
            (fun s0 => { s0 with
                items := items'
                status := some (deriveSubOrderStatus items') })
          saveOrder { o with
            subOrders := subs'
            status := deriveOrderStatus subs'
            lastUpdatedBy := u.sub }

/-- Embedding of `exports.updateSubOrderStatus`: missing `status` → 400; invalid
`setItemsTo` → 400; find sub-order; permission; assign `subOrder.status`
directly, bulk item statuses if requested, recompute `order.status`, save. -/
def updateSubOrderStatus (o : Order) (subOrderId : Nat) (status : Option String)
    (setItemsTo : Option String) (u : Principal) : Except OError Order :=
  match status with
  | none => .error .missingStatus
  | some st =>
    if (match setItemsTo with
        | some sTo => !(ALLOWED_ITEM_STATUSES.contains sTo)
        | none => false) then .error .invalidSetItemsTo
    else
      match subOrdersId o.subOrders subOrderId with
      | none => .error .subOrderNotFound
      | some so =>
        if !u.isAdmin && so.farmer != u.sub then .error .notAuthorized
        else
          let subs' := setSubOrder o.subOrders subOrderId
            (fun s0 => { s0 with
                status := some st
                items := applyBulkItemStatus s0.items setItemsTo })
          saveOrder { o with
            subOrders := subs'
            status := deriveOrderStatus subs'
            lastUpdatedBy := u.sub }

/-! ## Spec renderings of the status derivation (spec §4.2)

These two definitions transcribe the specification's branch lists verbatim,
to be compared with the code embeddings above (refinement). -/

/-- Spec §4.2 `deriveSubOrderStatus(items) -> Status`, branch for branch. -/
def specDeriveSubOrderStatus (statuses : List String) : String :=
  if statuses = [] then "pending"
  else if ∀ s ∈ statuses, s = "delivered" then "delivered"
  else if ∀ s ∈ statuses, s = "cancelled" then "cancelled"
  else if (∃ s ∈ statuses, s = "in_transit") ∨ (∃ s ∈ statuses, s = "ready")
        ∨ (∃ s ∈ statuses, s = "accepted") then "in_progress"
  else if (∃ s ∈ statuses, s = "delivered") ∧ (∃ s ∈ statuses, s ≠ "delivered") then
    "partially_delivered"
  else if ∀ s ∈ statuses, s = "pending" then "pending"
  else "in_progress"

/-- Spec §4.2 `deriveOrderStatus(subOrderStatuses) -> Status`, branch for
branch. -/
def specDeriveOrderStatus (statuses : List String) : String :=
  if statuses = [] then "pending"
  else if ∀ s ∈ statuses, s = "delivered" then "delivered"
  else if ∀ s ∈ statuses, s = "cancelled" then "cancelled"
  else if (∃ s ∈ statuses, s = "delivered") ∧ (∃ s ∈ statuses, s ≠ "delivered") then
    "partially_delivered"
  else if ∀ s ∈ statuses, s = "pending" then "pending"
  else "in_progress"

theorem subCore_eq_spec (l : List String) :
    deriveSubOrderStatusCore l = specDeriveSubOrderStatus l := by
  unfold deriveSubOrderStatusCore specDeriveSubOrderStatus
  refine if_congr ?_ rfl (if_congr ?_ rfl (if_congr ?_ rfl (if_congr ?_ rfl
    (if_congr ?_ rfl (if_congr ?_ rfl rfl)))))
  · exact List.isEmpty_iff
  · simp [List.all_eq_true]
  · simp [List.all_eq_true]
  · simp [List.elem_iff, or_assoc]
  · simp [List.any_eq_true, List.elem_iff]
  · simp [List.all_eq_true]

theorem orderCore_eq_spec (l : List String) :
    deriveOrderStatusCore l = specDeriveOrderStatus l := by
  unfold deriveOrderStatusCore specDeriveOrderStatus
  refine if_congr ?_ rfl (if_congr ?_ rfl (if_congr ?_ rfl (if_congr ?_ rfl
    (if_congr ?_ rfl rfl))))
  · exact List.isEmpty_iff
  · simp [List.all_eq_true]
  · simp [List.all_eq_true]
  · simp [List.any_eq_true, List.elem_iff]
  · simp [List.all_eq_true]

/-- Claim C3. For every list of item statuses, `deriveSubOrderStatus` returns
exactly the first matching branch of the spec's cascade (empty → pending; all
delivered → delivered; all cancelled → cancelled; any of
in_transit/ready/accepted → in_progress; one delivered and one other →
partially_delivered; all pending → pending; else in_progress), and
`deriveOrderStatus` likewise returns exactly its spec cascade, branches
evaluated in that order: the code's branch cascades coincide with the spec's
branch cascades on every status list. -/
theorem derive_functions_match_spec_branches :
    ∀ l : List String,
      deriveSubOrderStatusCore l = specDeriveSubOrderStatus l ∧
      deriveOrderStatusCore l = specDeriveOrderStatus l :=
  fun l => ⟨subCore_eq_spec l, orderCore_eq_spec l⟩

/-! ## Permutation invariance (C4) -/

theorem perm_all_eq {A : Type} {l l' : List A} (h : l.Perm l') (p : A → Bool) :
    l.all p = l'.all p := by
  induction h with
  | nil => rfl
  | cons x _ ih => simp [List.all_cons, ih]
  | swap x y t => simp [List.all_cons, Bool.and_left_comm]
  | trans _ _ ih1 ih2 => rw [ih1, ih2]

theorem perm_any_eq {A : Type} {l l' : List A} (h : l.Perm l') (p : A → Bool) :
    l.any p = l'.any p := by
  induction h with
  | nil => rfl
  | cons x _ ih => simp [List.any_cons, ih]
  | swap x y t => simp [List.any_cons, Bool.or_left_comm]
  | trans _ _ ih1 ih2 => rw [ih1, ih2]

theorem perm_contains_eq {A : Type} [BEq A] {l l' : List A} (h : l.Perm l')
    (a : A) : l.contains a = l'.contains a := by
  induction h with
  | nil => rfl
  | cons x _ ih => simp [List.contains_cons, ih]
  | swap x y t => simp [List.contains_cons, Bool.or_left_comm]
  | trans _ _ ih1 ih2 => rw [ih1, ih2]

theorem perm_isEmpty_eq {A : Type} {l l' : List A} (h : l.Perm l') :
    l.isEmpty = l'.isEmpty := by
  have hl := h.length_eq
  cases l <;> cases l' <;> simp_all

theorem subCore_perm {l l' : List String} (h : l.Perm l') :
    deriveSubOrderStatusCore l = deriveSubOrderStatusCore l' := by
  unfold deriveSubOrderStatusCore
  simp only [perm_isEmpty_eq h, perm_all_eq h, perm_any_eq h, perm_contains_eq h]

theorem orderCore_perm {l l' : List String} (h : l.Perm l') :
    deriveOrderStatusCore l = deriveOrderStatusCore l' := by
  unfold deriveOrderStatusCore
  simp only [perm_isEmpty_eq h, perm_all_eq h, perm_any_eq h, perm_contains_eq h]

/-- Claim C4. `deriveSubOrderStatus` and `deriveOrderStatus` are total
deterministic functions of their input list alone (they are Lean functions),
and on every permutation of a status list, of an item list, or of a sub-order
list they return the same result: the value depends only on the multiset of
statuses. -/
theorem derive_functions_permutation_invariant :
    (∀ l l' : List String, l.Perm l' →
       deriveSubOrderStatusCore l = deriveSubOrderStatusCore l' ∧
       deriveOrderStatusCore l = deriveOrderStatusCore l') ∧
    (∀ its its' : List OrderItem, its.Perm its' →
       deriveSubOrderStatus its = deriveSubOrderStatus its') ∧
    (∀ ss ss' : List SubOrder, ss.Perm ss' →
       deriveOrderStatus ss = deriveOrderStatus ss') := by
  refine ⟨fun l l' h => ⟨subCore_perm h, orderCore_perm h⟩, ?_, ?_⟩
  · intro its its' h
    exact subCore_perm (h.map _)
  · intro ss ss' h
    exact orderCore_perm (h.map _)

/-- Witness for C4 at a concrete permutation. -/
theorem derive_functions_permutation_invariant_witness :
    List.Perm ["delivered", "pending"] ["pending", "delivered"] ∧
    deriveSubOrderStatusCore ["delivered", "pending"]
      = deriveSubOrderStatusCore ["pending", "delivered"] ∧
    deriveOrderStatusCore ["delivered", "pending"]
      = deriveOrderStatusCore ["pending", "delivered"] := by
  have hp : List.Perm ["delivered", "pending"] ["pending", "delivered"] := by
    decide
  have h := derive_functions_permutation_invariant.1 _ _ hp
  exact ⟨hp, h.1, h.2⟩

/-! ## Missing statuses default to pending (C10) -/

/-- Claim C10. A missing status is counted as `pending` by both derivers: an
item with unset `itemStatus` contributes exactly what an explicitly-`pending`
item contributes to `deriveSubOrderStatus` (`it.itemStatus || 'pending'`),
and a sub-order with unset `status` contributes exactly what an
explicitly-`pending` sub-order contributes to `deriveOrderStatus`
(`so.status || 'pending'`); both functions are total over such lists. -/
theorem missing_status_counts_as_pending :
    (∀ (pre post : List OrderItem) (it : OrderItem), it.itemStatus = none →
       deriveSubOrderStatus (pre ++ it :: post) =
       deriveSubOrderStatus (pre ++ { it with itemStatus := some "pending" } :: post)) ∧
    (∀ (pre post : List SubOrder) (so : SubOrder), so.status = none →
       deriveOrderStatus (pre ++ so :: post) =
       deriveOrderStatus (pre ++ { so with status := some "pending" } :: post)) := by
  constructor
  · intro pre post it hx
    unfold deriveSubOrderStatus
    congr 1
    simp [hx]
  · intro pre post so hx
    unfold deriveOrderStatus
    congr 1
    simp [hx]

/-- Witness for C10 at a concrete unset-status item and sub-order. -/
theorem missing_status_counts_as_pending_witness :
    (OrderItem.mk none 1 1 10 none).itemStatus = none ∧
    deriveSubOrderStatus [OrderItem.mk none 1 1 10 none] =
      deriveSubOrderStatus [OrderItem.mk none 1 1 10 (some "pending")] ∧
    (SubOrder.mk 0 5 [] 0 none).status = none ∧
    deriveOrderStatus [SubOrder.mk 0 5 [] 0 none] =
      deriveOrderStatus [SubOrder.mk 0 5 [] 0 (some "pending")] := by
  refine ⟨rfl, ?_, rfl, ?_⟩
  · exact missing_status_counts_as_pending.1 [] [] _ rfl
  · exact missing_status_counts_as_pending.2 [] [] _ rfl

/-! ## The save pipeline always rewrites `Order.status` (C1, C2) -/

theorem saveOrder_ok {o o' : Order} (h : saveOrder o = .ok o') :
    o' = preSaveHook o ∧ validateOrder o = true := by
  unfold saveOrder at h
  split at h
  next hv => exact ⟨(Except.ok.inj h).symm, hv⟩
  next hv => cases h

theorem saveOrder_hook_status {o o' : Order} (h : saveOrder o = .ok o') :
    o'.status = updateDerivedStatus (o'.subOrders.map (fun so => so.status)) := by
  obtain ⟨rfl, -⟩ := saveOrder_ok h
  simp [preSaveHook]

/-- Demo listing store: listing 1 has price 10 and quantity 5. -/
def demoStore : Store := fun pid => if pid = 1 then some ⟨10, 5⟩ else none

/-- A persisted demo order: one sub-order of farmer 5 with a single pending
item. -/
def demoOrder : Order :=
  { _id := 0
    buyer := 7
    subOrders := [{ _id := 0
                    farmer := 5
                    items := [{ _id := none
                                product := 1
                                qty := 1
                                priceAtOrder := 10
                                itemStatus := some "pending" }]
                    subtotal := 10
                    status := some "pending" }]
    grandTotal := 10
    status := "pending"
    lastUpdatedBy := 7 }

/-- Claim C1, counterexample. An admin sets the status of `demoOrder` (whose
single sub-order is `pending`) to `delivered`; the call answers 200, but the
stored status is `pending`, not the supplied `delivered`: the `pre('save')`
hook re-derives it. -/
theorem updateOrderStatus_overwrites_admin_value :
    ((updateOrderStatus demoOrder "delivered" ⟨9, "admin", true⟩).toOption.map
      (fun o => o.status)) = some "pending" ∧ "pending" ≠ "delivered" := by
  decide

/-- Claim C1, amended. `updateOrderStatus` is admin-only and assigns the
supplied status (which must pass the schema's order-status enum validation),
but the `pre('save')` hook then recomputes `Order.status` with the model's
`updateDerivedStatus` before persisting: on success the stored status equals
`updateDerivedStatus` of the unchanged sub-orders' statuses, which can differ
from the supplied `newStatus`. -/
theorem updateOrderStatus_persists_hook_derivation :
    ∀ (o : Order) (newStatus : String) (u : Principal) (o' : Order),
      updateOrderStatus o newStatus u = .ok o' →
      u.isAdmin = true ∧
      ORDER_STATUS_ENUM.contains newStatus = true ∧
      o'.subOrders = o.subOrders ∧
      o'.status = updateDerivedStatus (o.subOrders.map (fun so => so.status)) := by
  intro o st u o' h
  unfold updateOrderStatus at h
  split at h
  next => cases h
  next hna =>
    have hadmin : u.isAdmin = true := by
      cases hu : u.isAdmin
      · exact absurd (by simp [hu]) hna
      · rfl
    obtain ⟨rfl, hv⟩ := saveOrder_ok h
    refine ⟨hadmin, ?_, rfl, by simp [preSaveHook]⟩
    simp only [validateOrder, Bool.and_eq_true] at hv
    exact hv.1.2

/-- Witness for C1's amended theorem at `demoOrder`. -/
theorem updateOrderStatus_persists_hook_derivation_witness :
    updateOrderStatus demoOrder "delivered" ⟨9, "admin", true⟩
      = .ok { demoOrder with status := "pending", lastUpdatedBy := 9 } ∧
    ({ demoOrder with status := "pending", lastUpdatedBy := 9 } : Order).status
      = updateDerivedStatus (demoOrder.subOrders.map (fun so => so.status)) := by
  refine ⟨by decide, ?_⟩
  exact (updateOrderStatus_persists_hook_derivation demoOrder "delivered"
    ⟨9, "admin", true⟩ _ (by decide)).2.2.2

/-- Claim C2, counterexample. A reachable order violating the claimed
invariant: create an order (one pending sub-order), then let its farmer set
the sub-order status to `ready` via `updateSubOrderStatus`.  The persisted
order status is `partially_delivered` (the hook's `updateDerivedStatus`),
while `deriveOrderStatus` of its sub-orders is `in_progress` — so the stored
status is not `deriveOrderStatus(subOrders.map(status))`. -/
theorem orderStatus_invariant_fails_on_reachable_order :
    (((createOrder demoStore 7 [⟨5, [⟨1, 2⟩]⟩]).2.toOption.bind
        (fun o => (updateSubOrderStatus o 0 (some "ready") none
          ⟨5, "farmer", false⟩).toOption)).map
      (fun o2 => (o2.status, deriveOrderStatus o2.subOrders)))
    = some ("partially_delivered", "in_progress") ∧
    "partially_delivered" ≠ "in_progress" := by
  decide

/-- Claim C2, amended. For every order produced by a core operation
(`createOrder`, `updateOrderItemStatus`, `updateSubOrderStatus`), the
persisted `Order.status` equals `updateDerivedStatus` (the `pre('save')`
hook's derivation in `Order.js`) applied to the stored sub-orders' statuses
— every persist path stores the status through that function, not through
`deriveOrderStatus` (the controllers compute `deriveOrderStatus`, but the
hook overwrites it at save time). -/
theorem persisted_status_is_updateDerivedStatus :
    (∀ (s : Store) (buyer : Nat) (req : List ReqSubOrder) (o : Order),
       (createOrder s buyer req).2 = .ok o →
       o.status = updateDerivedStatus (o.subOrders.map (fun so => so.status))) ∧
    (∀ (o : Order) (sid iid : Nat) (st : String) (u : Principal) (o' : Order),
       updateOrderItemStatus o sid iid st u = .ok o' →
       o'.status = updateDerivedStatus (o'.subOrders.map (fun so => so.status))) ∧
    (∀ (o : Order) (sid : Nat) (st sTo : Option String) (u : Principal) (o' : Order),
       updateSubOrderStatus o sid st sTo u = .ok o' →
       o'.status = updateDerivedStatus (o'.subOrders.map (fun so => so.status))) := by
  refine ⟨?_, ?_, ?_⟩
  · intro s b req o h
    unfold createOrder at h
    split at h
    next => simp at h
    next =>
      split at h
      next => simp at h
      next =>
        split at h
        next => simp at h
        next o2 hsave =>
          simp only at h
          exact (Except.ok.inj h) ▸ saveOrder_hook_status hsave
  · intro o sid iid st u o' h
    unfold updateOrderItemStatus at h
    split at h
    next => cases h
    next =>
      split at h
      next => cases h
      next =>
        split at h
        next => cases h
        next =>
          split at h
          next => cases h
          next => exact saveOrder_hook_status h
  · intro o sid st sTo u o' h
    unfold updateSubOrderStatus at h
    split at h
    next => cases h
    next =>
      split at h
      next => cases h
      next =>
        split at h
        next => cases h
        next =>
          split at h
          next => cases h
          next => exact saveOrder_hook_status h

/-- The order `createOrder demoStore 7 [⟨5, [⟨1, 2⟩]⟩]` produces. -/
def demoCreatedOrder : Order :=
  { _id := 0
    buyer := 7
    subOrders := [{ _id := 0
                    farmer := 5
                    items := [{ _id := none
                                product := 1
                                qty := 2
                                priceAtOrder := 10
                                itemStatus := some "pending" }]
                    subtotal := 20
                    status := some "pending" }]
    grandTotal := 20
    status := "pending"
    lastUpdatedBy := 7 }

/-- Witness for C2's amended theorem: the order just created from `demoStore`
satisfies the amended invariant. -/
theorem persisted_status_is_updateDerivedStatus_witness :
    (createOrder demoStore 7 [⟨5, [⟨1, 2⟩]⟩]).2 = .ok demoCreatedOrder ∧
    demoCreatedOrder.status
      = updateDerivedStatus (demoCreatedOrder.subOrders.map (fun so => so.status)) := by
  refine ⟨by decide, ?_⟩
  exact persisted_status_is_updateDerivedStatus.1 demoStore 7 [⟨5, [⟨1, 2⟩]⟩]
    demoCreatedOrder (by decide)

theorem condDecrement_some {s : Store} {pid : Nat} {qty : Int} {s' : Store}
    (h : condDecrement s pid qty = some s') :
    ∃ l, s pid = some l ∧ qty ≤ l.quantity ∧
      s' pid = some { price := l.price, quantity := l.quantity - qty } ∧
      ∀ p, p ≠ pid → s' p = s p := by
  unfold condDecrement at h
  split at h
  next => cases h
  next l hl =>
    split at h
    next hq =>
      obtain rfl := Option.some.inj h
      refine ⟨l, hl, hq, ?_, ?_⟩
      · simp [storeSet]
      · intro p hp
        simp [storeSet, hp]
    next => cases h

theorem condDecrement_nonneg {s : Store} {pid : Nat} {qty : Int} {s' : Store}
    (hs : StoreNonneg s) (h : condDecrement s pid qty = some s') :
    StoreNonneg s' := by
  obtain ⟨l, hl, hq, hpid, hother⟩ := condDecrement_some h
  intro p lp hp
  by_cases hppid : p = pid
  · subst hppid
    rw [hpid] at hp
    obtain rfl := Option.some.inj hp
    simp only
    omega
  · rw [hother p hppid] at hp
    exact hs p lp hp

theorem applyDecrementResult_ok {pid : Nat} {r : Option Store} {s2 : Store}
    (h : applyDecrementResult pid r = .ok s2) : r = some s2 := by
  unfold applyDecrementResult at h
  split at h
  next => exact congrArg some (Except.ok.inj h)
  next => cases h

theorem processItem_ok {s : Store} {it : ReqItem} {s' : Store} {oi : OrderItem}
    (h : processItem s it = .ok (s', oi)) :
    condDecrement s it.product it.qty = some s' ∧
    ∃ prod, s it.product = some prod ∧ ¬(prod.quantity < it.qty) ∧
      oi = { _id := none, product := it.product, qty := it.qty,
             priceAtOrder := prod.price, itemStatus := some "pending" } := by
  unfold processItem at h
  split at h
  next => cases h
  next prod hprod =>
    split at h
    next => cases h
    next hlt =>
      split at h
      next => cases h
      next s2 hs2 =>
        rw [Except.ok.injEq, Prod.mk.injEq] at h
        obtain ⟨rfl, rfl⟩ := h
        exact ⟨applyDecrementResult_ok hs2, prod, hprod, hlt, rfl⟩

def itemsQty (its : List ReqItem) (pid : Nat) : Int :=
  ((its.filter (fun it => it.product == pid)).map (fun it => it.qty)).sum

theorem itemsQty_nil (pid : Nat) : itemsQty [] pid = 0 := rfl

theorem itemsQty_cons (it : ReqItem) (rest : List ReqItem) (pid : Nat) :
    itemsQty (it :: rest) pid =
      (if it.product = pid then it.qty else 0) + itemsQty rest pid := by
  unfold itemsQty
  by_cases hp : it.product = pid <;> simp [List.filter_cons, hp]

theorem processItemsAcc_store {its : List ReqItem} :
    ∀ {s s' : Store} {acc sub : Int} {ois : List OrderItem},
      processItemsAcc s its acc = .ok (s', ois, sub) →
      ∀ pid l, s pid = some l →
        s' pid = some { price := l.price, quantity := l.quantity - itemsQty its pid } := by
  induction its with
  | nil =>
    intro s s' acc sub ois h pid l hl
    unfold processItemsAcc at h
    rw [Except.ok.injEq, Prod.mk.injEq, Prod.mk.injEq] at h
    obtain ⟨rfl, -, -⟩ := h
    rw [itemsQty_nil, sub_zero, hl]
  | cons it rest ih =>
    intro s s' acc sub ois h pid l hl
    unfold processItemsAcc at h
    split at h
    next => cases h
    next s1 oi hitem =>
      split at h
      next => cases h
      next s2 ois2 sub2 hrest =>
        rw [Except.ok.injEq, Prod.mk.injEq, Prod.mk.injEq] at h
        obtain ⟨rfl, -, -⟩ := h
        obtain ⟨hdec, prod, hprod, hnlt, -⟩ := processItem_ok hitem
        obtain ⟨l1, hl1, hq1, hpid1, hother1⟩ := condDecrement_some hdec
        by_cases hp : pid = it.product
        · subst hp
          rw [hl] at hl1
          obtain rfl := Option.some.inj hl1
          have h2 := ih hrest it.product _ hpid1
          rw [h2, itemsQty_cons, if_pos rfl]
          have harith : l.quantity - it.qty - itemsQty rest it.product
              = l.quantity - (it.qty + itemsQty rest it.product) := by ring
          rw [harith]
        · have hs1 : s1 pid = some l := by
            rw [hother1 pid hp]
            exact hl
          have h2 := ih hrest pid l hs1
          rw [h2, itemsQty_cons, if_neg (fun hh => hp hh.symm), zero_add]

theorem processItemsAcc_subtotal {its : List ReqItem} :
    ∀ {s s' : Store} {acc sub : Int} {ois : List OrderItem},
      processItemsAcc s its acc = .ok (s', ois, sub) →
      sub = acc + (ois.map (fun oi => oi.priceAtOrder * oi.qty)).sum := by
  induction its with
  | nil =>
    intro s s' acc sub ois h
    unfold processItemsAcc at h
    rw [Except.ok.injEq, Prod.mk.injEq, Prod.mk.injEq] at h
    obtain ⟨-, rfl, rfl⟩ := h
    simp
  | cons it rest ih =>
    intro s s' acc sub ois h
    unfold processItemsAcc at h
    split at h
    next => cases h
    next s1 oi hitem =>
      split at h
      next => cases h
      next s2 ois2 sub2 hrest =>
        rw [Except.ok.injEq, Prod.mk.injEq, Prod.mk.injEq] at h
        obtain ⟨-, rfl, rfl⟩ := h
        have h2 := ih hrest
        rw [h2, List.map_cons, List.sum_cons]
        ring

theorem processItemsAcc_nonneg {its : List ReqItem} :
    ∀ {s s' : Store} {acc sub : Int} {ois : List OrderItem},
      StoreNonneg s → processItemsAcc s its acc = .ok (s', ois, sub) →
      StoreNonneg s' := by
  induction its with
  | nil =>
    intro s s' acc sub ois hs h
    unfold processItemsAcc at h
    rw [Except.ok.injEq, Prod.mk.injEq, Prod.mk.injEq] at h
    obtain ⟨rfl, -, -⟩ := h
    exact hs
  | cons it rest ih =>
    intro s s' acc sub ois hs h
    unfold processItemsAcc at h
    split at h
    next => cases h
    next s1 oi hitem =>
      split at h
      next => cases h
      next s2 ois2 sub2 hrest =>
        rw [Except.ok.injEq, Prod.mk.injEq, Prod.mk.injEq] at h
        obtain ⟨rfl, -, -⟩ := h
        exact ih (condDecrement_nonneg hs (processItem_ok hitem).1) hrest

def reqQty (sos : List ReqSubOrder) (pid : Nat) : Int :=
  (sos.map (fun so => itemsQty so.items pid)).sum

theorem reqQty_cons (so : ReqSubOrder) (rest : List ReqSubOrder) (pid : Nat) :
    reqQty (so :: rest) pid = itemsQty so.items pid + reqQty rest pid := by
  simp [reqQty]

theorem processSubOrders_props {sos : List ReqSubOrder} :
    ∀ {s s' : Store} {idx : Nat} {subs : List SubOrder} {total : Int},
      processSubOrders s idx sos = .ok (s', subs, total) →
      (∀ so ∈ subs, so.subtotal =
         (so.items.map (fun oi => oi.priceAtOrder * oi.qty)).sum) ∧
      total = (subs.map (fun so => so.subtotal)).sum ∧
      (∀ pid l, s pid = some l →
         s' pid = some { price := l.price, quantity := l.quantity - reqQty sos pid }) := by
  induction sos with
  | nil =>
    intro s s' idx subs total h
    unfold processSubOrders at h
    rw [Except.ok.injEq, Prod.mk.injEq, Prod.mk.injEq] at h
    obtain ⟨rfl, rfl, rfl⟩ := h
    refine ⟨by simp, by simp, ?_⟩
    intro pid l hl
    rw [hl]
    simp [reqQty]
  | cons so rest ih =>
    intro s s' idx subs total h
    unfold processSubOrders at h
    split at h
    next => cases h
    next =>
      split at h
      next => cases h
      next s1 ois subtotal hitems =>
        split at h
        next => cases h
        next s2 subs2 restTotal hrest =>
          rw [Except.ok.injEq, Prod.mk.injEq, Prod.mk.injEq] at h
          obtain ⟨rfl, rfl, rfl⟩ := h
          obtain ⟨ihA, ihB, ihC⟩ := ih hrest
          have hsub := processItemsAcc_subtotal hitems
          rw [zero_add] at hsub
          refine ⟨?_, ?_, ?_⟩
          · intro so2 hso2
            rcases List.mem_cons.mp hso2 with hh | hh
            · subst hh
              exact hsub
            · exact ihA so2 hh
          · rw [List.map_cons, List.sum_cons, ihB]
          · intro pid l hl
            have h1 := processItemsAcc_store hitems pid l hl
            have h2 := ihC pid _ h1
            rw [h2, reqQty_cons]
            have harith : l.quantity - itemsQty so.items pid - reqQty rest pid
                = l.quantity - (itemsQty so.items pid + reqQty rest pid) := by ring
            rw [harith]

theorem processSubOrders_nonneg {sos : List ReqSubOrder} :
    ∀ {s s' : Store} {idx : Nat} {subs : List SubOrder} {total : Int},
      StoreNonneg s → processSubOrders s idx sos = .ok (s', subs, total) →
      StoreNonneg s' := by
  induction sos with
  | nil =>
    intro s s' idx subs total hs h
    unfold processSubOrders at h
    rw [Except.ok.injEq, Prod.mk.injEq, Prod.mk.injEq] at h
    obtain ⟨rfl, -, -⟩ := h
    exact hs
  | cons so rest ih =>
    intro s s' idx subs total hs h
    unfold processSubOrders at h
    split at h
    next => cases h
    next =>
      split at h
      next => cases h
      next s1 ois subtotal hitems =>
        split at h
        next => cases h
        next s2 subs2 restTotal hrest =>
          rw [Except.ok.injEq, Prod.mk.injEq, Prod.mk.injEq] at h
          obtain ⟨rfl, -, -⟩ := h
          exact ih (processItemsAcc_nonneg hs hitems) hrest



/-! ## Checkout atomicity and guard safety (C5, C6, C7) -/

/-- Claim C5. Checkout is all-or-nothing: whenever `createOrder` fails (listing
not found, requested quantity over stock, refused conditional decrement,
validation failure, or a save error), the visible listing store after the
call equals the input store at every listing — no listing ends up
decremented, and no order is returned (the transaction was aborted before
the error response). -/
theorem createOrder_all_or_nothing :
    ∀ (s : Store) (buyer : Nat) (req : List ReqSubOrder) (e : OError),
      (createOrder s buyer req).2 = .error e →
      ∀ pid, (createOrder s buyer req).1 pid = s pid := by
  intro s b req e h pid
  unfold createOrder at h ⊢
  split at h
  next hj => rw [if_pos hj]
  next hj =>
    split at h
    next e2 heq => rw [if_neg hj]
    next s2 subs gt heq =>
      split at h
      next e3 heq2 => rw [if_neg hj]
      next o heq2 => simp at h

def lowStore : Store := fun pid => if pid = 1 then some ⟨10, 1⟩ else none

theorem demoStore_nonneg : StoreNonneg demoStore := by
  intro pid l h
  unfold demoStore at h
  by_cases hp : pid = 1
  · rw [if_pos hp] at h
    obtain rfl := Option.some.inj h
    decide
  · rw [if_neg hp] at h
    cases h

/-- Witness for C5: requesting 9 units of a 5-unit listing fails with
`InsufficientStock` and leaves the store untouched. -/
theorem createOrder_all_or_nothing_witness :
    (createOrder demoStore 7 [⟨5, [⟨1, 9⟩]⟩]).2 = .error (.insufficientStock 1 5 9) ∧
    ∀ pid, (createOrder demoStore 7 [⟨5, [⟨1, 9⟩]⟩]).1 pid = demoStore pid := by
  refine ⟨by decide, ?_⟩
  exact createOrder_all_or_nothing demoStore 7 [⟨5, [⟨1, 9⟩]⟩]
    (.insufficientStock 1 5 9) (by decide)

/-- Claim C6. The conditional decrement semantics: (1) a decrement is applied
only when the listing exists and its current quantity is ≥ `qty`, and then
the new quantity is exactly `quantity - qty`; (2) when the guard refuses,
`createOrder`'s reservation step turns the refusal into the `Conflict`
error, answered with HTTP 409; (3) consequently no checkout ever drives any
listing's quantity below 0: `createOrder` preserves store non-negativity on
both its success and failure paths. -/
theorem conditional_decrement_guard_safety :
    (∀ (s : Store) (pid : Nat) (qty : Int) (s' : Store),
       condDecrement s pid qty = some s' →
       ∃ l, s pid = some l ∧ qty ≤ l.quantity ∧
         s' pid = some { price := l.price, quantity := l.quantity - qty }) ∧
    (∀ (s : Store) (pid : Nat) (qty : Int),
       condDecrement s pid qty = none →
       applyDecrementResult pid (condDecrement s pid qty)
         = .error (.reserveConflict pid) ∧
       httpStatus (.reserveConflict pid) = 409) ∧
    (∀ (s : Store) (buyer : Nat) (req : List ReqSubOrder),
       StoreNonneg s → StoreNonneg (createOrder s buyer req).1) := by
  refine ⟨?_, ?_, ?_⟩
  · intro s pid qty s' h
    obtain ⟨l, h1, h2, h3, -⟩ := condDecrement_some h
    exact ⟨l, h1, h2, h3⟩
  · intro s pid qty h
    rw [h]
    exact ⟨rfl, rfl⟩
  · intro s b req hs
    unfold createOrder
    split
    next => exact hs
    next =>
      split
      next => exact hs
      next s2 subs gt heq =>
        split
        next => exact hs
        next => exact processSubOrders_nonneg hs heq

/-- Witness for C6: a refused decrement (quantity 1, requested 2) yields the
409 `Conflict`, and a successful checkout preserves non-negativity. -/
theorem conditional_decrement_guard_safety_witness :
    condDecrement lowStore 1 2 = none ∧
    applyDecrementResult 1 (condDecrement lowStore 1 2)
      = .error (.reserveConflict 1) ∧
    httpStatus (.reserveConflict 1) = 409 ∧
    StoreNonneg (createOrder demoStore 7 [⟨5, [⟨1, 2⟩]⟩]).1 := by
  have hnone : condDecrement lowStore 1 2 = none := rfl
  have h2 := conditional_decrement_guard_safety.2.1 lowStore 1 2 hnone
  have h3 := conditional_decrement_guard_safety.2.2 demoStore 7 [⟨5, [⟨1, 2⟩]⟩]
    demoStore_nonneg
  exact ⟨hnone, h2.1, h2.2, h3⟩

/-- Claim C7. On successful checkout every sub-order's `subtotal` equals the
sum over its items of `qty * priceAtOrder` (the listing price captured at
checkout), the order's `grandTotal` equals the sum of all subtotals, and
every listing's stored quantity drops by exactly the total quantity the
request reserves from it (each item decrements its listing exactly once). -/
theorem createOrder_totals_and_decrements :
    ∀ (s : Store) (buyer : Nat) (req : List ReqSubOrder) (o : Order),
      (createOrder s buyer req).2 = .ok o →
      (∀ so ∈ o.subOrders, so.subtotal =
         (so.items.map (fun oi => oi.priceAtOrder * oi.qty)).sum) ∧
      o.grandTotal = (o.subOrders.map (fun so => so.subtotal)).sum ∧
      (∀ pid l, s pid = some l →
         (createOrder s buyer req).1 pid =
           some { price := l.price, quantity := l.quantity - reqQty req pid }) := by
  intro s b req o h
  unfold createOrder at h ⊢
  split at h
  next => simp at h
  next hj =>
    split at h
    next => simp at h
    next s2 subs gt heq =>
      split at h
      next => simp at h
      next o2 heq2 =>
        simp only [Except.ok.injEq] at h
        subst h
        obtain ⟨hA, hB, hC⟩ := processSubOrders_props heq
        obtain ⟨rfl, -⟩ := saveOrder_ok heq2
        refine ⟨?_, ?_, ?_⟩
        · intro so hso
          exact hA so hso
        · simpa [preSaveHook] using hB
        · intro pid l hl
          rw [if_neg hj]
          exact hC pid l hl

/-- Witness for C7, the spec's round-trip numbers: one sub-order with one
item of qty 2 against a listing with price 10 and quantity 5 yields
subtotal 20, grandTotal 20, and listing quantity 3 afterward. -/
theorem createOrder_totals_and_decrements_witness :
    (createOrder demoStore 7 [⟨5, [⟨1, 2⟩]⟩]).2 = .ok demoCreatedOrder ∧
    (∀ so ∈ demoCreatedOrder.subOrders, so.subtotal =
       (so.items.map (fun oi => oi.priceAtOrder * oi.qty)).sum) ∧
    demoCreatedOrder.grandTotal = 20 ∧
    (createOrder demoStore 7 [⟨5, [⟨1, 2⟩]⟩]).1 1 = some ⟨10, 3⟩ := by
  have hok : (createOrder demoStore 7 [⟨5, [⟨1, 2⟩]⟩]).2 = .ok demoCreatedOrder := by
    decide
  have h := createOrder_totals_and_decrements demoStore 7 [⟨5, [⟨1, 2⟩]⟩]
    demoCreatedOrder hok
  refine ⟨hok, h.1, by decide, ?_⟩
  have h3 := h.2.2 1 ⟨10, 5⟩ rfl
  rw [h3]
  decide



/-! ## Seller visibility and the item-status endpoint (C8) -/

/-- Demo order for the visibility scenario: sub-order `SO1` (`_id` 1) belongs
to farmer 5, sub-order `SO2` (`_id` 2) to farmer 6; order items carry no
`_id` (`OrderItemSchema` sets `_id: false`). -/
def c8order : Order :=
  { _id := 3
    buyer := 7
    subOrders := [{ _id := 1
                    farmer := 5
                    items := [{ _id := none
                                product := 1
                                qty := 1
                                priceAtOrder := 10
                                itemStatus := some "pending" }]
                    subtotal := 10
                    status := some "pending" },
                  { _id := 2
                    farmer := 6
                    items := [{ _id := none
                                product := 2
                                qty := 1
                                priceAtOrder := 4
                                itemStatus := some "pending" }]
                    subtotal := 4
                    status := some "pending" }]
    grandTotal := 14
    status := "pending"
    lastUpdatedBy := 7 }

/-- Claim C8. Evaluating the code at the claim's scenario: farmer 5 (owner of
`SO1`) can `getOrder` the whole order, as claimed; but
`updateOrderItemStatus` aimed at the item inside `SO2` answers 404
`Item not found` — not 403 `Forbidden` — because `OrderItemSchema` is
declared with `_id: false`, so order items have no `_id` and
`subOrder.items.id(itemId)` never finds a document; the item lookup runs
before the permission check, so the 403 path is unreachable.  (The order is
left unchanged either way.) -/
theorem seller_visibility_vs_item_update :
    getOrder c8order ⟨5, "farmer", false⟩ = .ok c8order ∧
    updateOrderItemStatus c8order 2 0 "delivered" ⟨5, "farmer", false⟩
      = .error .itemNotFound ∧
    httpStatus .itemNotFound = 404 ∧
    .error .itemNotFound ≠ (.error .notAuthorized : Except OError Order) := by
  decide

/-! ## `updateSubOrderStatus` behaviour (C9) -/

/-- Claim C9, counterexample. A malformed `status` value is not rejected with
a 400 `ValidationError` by `updateSubOrderStatus`: the controller performs no
enum check on `status` (only on `setItemsTo`), assigns it to
`subOrder.status`, and the mongoose schema validation then rejects the
document at `save()`; that error flows through `next(err)` and is answered
500 by the default handler, not 400. -/
theorem malformed_subOrder_status_not_400 :
    updateSubOrderStatus demoOrder 0 (some "bogus") none ⟨5, "farmer", false⟩
      = .error .saveValidationFailed ∧
    httpStatus .saveValidationFailed = 500 ∧
    httpStatus .saveValidationFailed ≠ 400 := by
  decide

theorem permission_of_not_denied {u : Principal} {farmer : Nat}
    (h : ¬((!u.isAdmin && farmer != u.sub) = true)) :
    u.isAdmin = true ∨ farmer = u.sub := by
  cases hu : u.isAdmin
  · right
    by_contra hne
    exact h (by simp [hu, bne_iff_ne, hne])
  · left
    rfl

theorem mem_setSubOrder_of_found {subs : List SubOrder} {sid : Nat}
    {so : SubOrder} (h : subOrdersId subs sid = some so) (f : SubOrder → SubOrder) :
    f so ∈ setSubOrder subs sid f := by
  induction subs with
  | nil => cases h
  | cons so1 rest ih =>
    unfold subOrdersId at h
    rw [List.find?_cons] at h
    unfold setSubOrder
    by_cases hp : (so1._id == sid) = true
    · rw [if_pos hp]
      simp only [hp] at h
      obtain rfl := Option.some.inj h
      exact List.mem_cons_self _ _
    · rw [if_neg hp]
      have hp2 : (so1._id == sid) = false := by
        simpa using hp
      simp only [hp2] at h
      exact List.mem_cons_of_mem _ (ih h)

/-- Claim C9, amended. `updateSubOrderStatus` requires the principal to be the
sub-order's farmer or an admin; on success it has set `subOrder.status`
directly to the given value, bulk-set every item's `itemStatus` when
`setItemsTo` was given, recomputed `order.status` from all sub-order statuses
(the save pipeline's derivation), and persisted.  A missing `status` and a
malformed `setItemsTo` are rejected with 400; a malformed `status` value is
not rejected with 400 — it reaches `save()`, fails the schema's enum
validation there, and surfaces through `next(err)` (500). -/
theorem updateSubOrderStatus_behaviour :
    (∀ (o : Order) (sid : Nat) (st : String) (setTo : Option String)
       (u : Principal) (o' : Order),
       updateSubOrderStatus o sid (some st) setTo u = .ok o' →
       ∃ so, subOrdersId o.subOrders sid = some so ∧
         (u.isAdmin = true ∨ so.farmer = u.sub) ∧
         o'.subOrders = setSubOrder o.subOrders sid
           (fun s0 => { s0 with
               status := some st
               items := applyBulkItemStatus s0.items setTo }) ∧
         o'.status = updateDerivedStatus (o'.subOrders.map (fun so => so.status))) ∧
    (∀ (o : Order) (sid : Nat) (setTo : Option String) (u : Principal),
       updateSubOrderStatus o sid none setTo u = .error .missingStatus ∧
       httpStatus .missingStatus = 400) ∧
    (∀ (o : Order) (sid : Nat) (st sTo : String) (u : Principal),
       ALLOWED_ITEM_STATUSES.contains sTo = false →
       updateSubOrderStatus o sid (some st) (some sTo) u
         = .error .invalidSetItemsTo ∧
       httpStatus .invalidSetItemsTo = 400) ∧
    (∀ (o : Order) (sid : Nat) (st : String) (u : Principal) (so : SubOrder),
       subOrdersId o.subOrders sid = some so →
       (u.isAdmin = true ∨ so.farmer = u.sub) →
       SUBORDER_STATUS_ENUM.contains st = false →
       updateSubOrderStatus o sid (some st) none u
         = .error .saveValidationFailed ∧
       httpStatus .saveValidationFailed ≠ 400) := by
  refine ⟨?_, ?_, ?_, ?_⟩
  · intro o sid st setTo u o' h
    simp only [updateSubOrderStatus] at h
    split at h
    next => cases h
    next hsetTo =>
      split at h
      next => cases h
      next so hfound =>
        split at h
        next => cases h
        next hperm =>
          refine ⟨so, hfound, permission_of_not_denied hperm, ?_, ?_⟩
          · obtain ⟨rfl, -⟩ := saveOrder_ok h
            rfl
          · exact saveOrder_hook_status h
  · intro o sid setTo u
    exact ⟨rfl, rfl⟩
  · intro o sid st sTo u hbad
    constructor
    · simp only [updateSubOrderStatus]
      rw [if_pos ?hcond]
      case hcond =>
        rw [hbad]
        rfl
    · rfl
  · intro o sid st u so hfound hperm hbad
    constructor
    · simp only [updateSubOrderStatus, hfound]
      rw [if_neg (by simp)]
      have hdeny : (!u.isAdmin && so.farmer != u.sub) = false := by
        rcases hperm with ha | hf
        · simp [ha]
        · simp [hf]
      rw [hdeny]
      simp only [Bool.false_eq_true, if_false]
      unfold saveOrder
      rw [if_neg ?hval]
      case hval =>
        intro hval
        simp only [validateOrder, Bool.and_eq_true, List.all_eq_true] at hval
        have hmem := mem_setSubOrder_of_found hfound
          (fun s0 => { s0 with
              status := some st
              items := applyBulkItemStatus s0.items none })
        have hv := hval.2 _ hmem
        simp only [validSubOrder, Bool.and_eq_true] at hv
        rw [hbad] at hv
        exact Bool.false_ne_true hv.1.2
    · decide

/-- Witness for C9's amended theorem: farmer 5 bulk-accepts their sub-order
(the persisted sub-order status is the supplied value, every item is
`accepted`, order status is the derived value), and each error branch is
exercised. -/
theorem updateSubOrderStatus_behaviour_witness :
    updateSubOrderStatus demoOrder 0 (some "accepted") (some "accepted")
      ⟨5, "farmer", false⟩ = .ok
      { demoOrder with
        subOrders := [{ _id := 0
                        farmer := 5
                        items := [{ _id := none
                                    product := 1
                                    qty := 1
                                    priceAtOrder := 10
                                    itemStatus := some "accepted" }]
                        subtotal := 10
                        status := some "accepted" }]
        status := "in_progress"
        lastUpdatedBy := 5 } ∧
    updateSubOrderStatus demoOrder 0 none none ⟨5, "farmer", false⟩
      = .error .missingStatus ∧
    updateSubOrderStatus demoOrder 0 (some "ready") (some "bogus")
      ⟨5, "farmer", false⟩ = .error .invalidSetItemsTo ∧
    updateSubOrderStatus demoOrder 0 (some "bogus") none ⟨5, "farmer", false⟩
      = .error .saveValidationFailed := by
  refine ⟨by decide, ?_, ?_, ?_⟩
  · exact (updateSubOrderStatus_behaviour.2.1 demoOrder 0 none
      ⟨5, "farmer", false⟩).1
  · exact (updateSubOrderStatus_behaviour.2.2.1 demoOrder 0 "ready" "bogus"
      ⟨5, "farmer", false⟩ (by decide)).1
  · exact (updateSubOrderStatus_behaviour.2.2.2 demoOrder 0 "bogus"
      ⟨5, "farmer", false⟩
      (SubOrder.mk 0 5 [OrderItem.mk none 1 1 10 (some "pending")] 10
        (some "pending"))
      (by decide) (by decide) (by decide)).1

end Okuafopa
